import Mathlib

/-!
A shallow embedding of the WildCogs chess cog (`src/chessgame/chessgame.py`).

The repository ships only the Discord command layer (`ChessGame` in
`chessgame.py`); the chess engine it drives (`Game`, imported from the
sibling module `game`) is not part of the sources, so the engine below is
modelled from the specification (board model, SAN resolution, draw-claim
evaluator, game session).  The command layer itself — game storage per
channel, `start`, `move`, `resign`, `draw claim`, `draw byagreement` — is
translated directly from `chessgame.py`.
-/

namespace WildChess

/-- Modelled from the spec: side colors of the chess engine missing from
the sources (module `game`). -/
inductive Color where
  | white
  | black
  deriving DecidableEq

def Color.other : Color → Color
  | .white => .black
  | .black => .white

/-- Modelled from the spec: chess piece kinds. -/
inductive PieceKind where
  | pawn
  | knight
  | bishop
  | rook
  | queen
  | king
  deriving DecidableEq

/-- Modelled from the spec: a piece is a kind together with a color. -/
structure Piece where
  color : Color
  kind : PieceKind
  deriving DecidableEq

/-- Modelled from the spec: castling rights, per side and per rook side. -/
structure Castling where
  whiteKing : Bool
  whiteQueen : Bool
  blackKing : Bool
  blackQueen : Bool
  deriving DecidableEq

/-- Modelled from the spec: the board is an 8×8 grid of squares, each empty
or holding a piece.  Squares are indexed 0..63, square = rank * 8 + file,
square 0 being a1. -/
abbrev Board := List (Option Piece)

/-- Modelled from the spec: a position holds piece placement, side to move,
castling rights, the en-passant target square, the half-move clock and the
full-move number. -/
structure Position where
  board : Board
  turn : Color
  castling : Castling
  epTarget : Option Nat
  halfmove : Nat
  fullmove : Nat
  deriving DecidableEq

/-- Modelled from the spec: special-move tag of a move record. -/
inductive MoveTag where
  | castleKing
  | castleQueen
  | enPassant
  deriving DecidableEq

/-- Modelled from the spec: a move record — origin, destination, moving
piece kind, optional captured kind, optional promotion kind, optional
special-move tag. -/
structure Move where
  src : Nat
  dst : Nat
  piece : PieceKind
  capture : Option PieceKind
  promo : Option PieceKind
  tag : Option MoveTag
  deriving DecidableEq

/-- Modelled from the spec: the part of a position that is compared for
repetition counting — placement, side to move, castling rights and
en-passant target. -/
structure RepKey where
  board : Board
  turn : Color
  castling : Castling
  epTarget : Option Nat
  deriving DecidableEq

def Position.key (pos : Position) : RepKey :=
  ⟨pos.board, pos.turn, pos.castling, pos.epTarget⟩

def pieceAt (b : Board) (sq : Nat) : Option Piece :=
  b.getD sq none

def setSq (b : Board) (sq : Nat) (p : Option Piece) : Board :=
  b.set sq p

def backRank (c : Color) : List (Option Piece) :=
  [PieceKind.rook, .knight, .bishop, .queen, .king, .bishop, .knight, .rook].map
    (fun k => some ⟨c, k⟩)

def pawnRank (c : Color) : List (Option Piece) :=
  List.replicate 8 (some ⟨c, .pawn⟩)

def emptyRank : List (Option Piece) :=
  List.replicate 8 none

/-- Modelled from the spec: the standard-chess starting placement. -/
def startBoard : Board :=
  backRank .white ++ pawnRank .white ++ emptyRank ++ emptyRank ++
    emptyRank ++ emptyRank ++ pawnRank .black ++ backRank .black

/-- Shift a square by a file and rank delta, `none` when leaving the board. -/
def shift (sq : Nat) (df dr : Int) : Option Nat :=
  let f : Int := Int.ofNat (sq % 8) + df
  let r : Int := Int.ofNat (sq / 8) + dr
  if 0 ≤ f ∧ f < 8 ∧ 0 ≤ r ∧ r < 8 then some ((r * 8 + f).toNat) else none

def knightOffsets : List (Int × Int) :=
  [(1, 2), (2, 1), (2, -1), (1, -2), (-1, -2), (-2, -1), (-2, 1), (-1, 2)]

def kingOffsets : List (Int × Int) :=
  [(1, 0), (1, 1), (0, 1), (-1, 1), (-1, 0), (-1, -1), (0, -1), (1, -1)]

def diagDirs : List (Int × Int) :=
  [(1, 1), (1, -1), (-1, 1), (-1, -1)]

def orthoDirs : List (Int × Int) :=
  [(1, 0), (-1, 0), (0, 1), (0, -1)]

/-- Direction a pawn of the given color advances in (rank delta). -/
def pawnDir : Color → Int
  | .white => 1
  | .black => -1

/-- First piece encountered walking from `sq` along a direction. -/
def rayFirstPiece (b : Board) (sq : Nat) (df dr : Int) : Nat → Option Piece
  | 0 => none
  | fuel + 1 =>
    match shift sq df dr with
    | none => none
    | some t =>
      match pieceAt b t with
      | none => rayFirstPiece b t df dr fuel
      | some p => some p

/-- Modelled from the spec: attack computation — whether the side `c`
attacks square `target`. -/
def squareAttacked (b : Board) (target : Nat) (c : Color) : Bool :=
  knightOffsets.any (fun o =>
    match shift target o.1 o.2 with
    | some s => decide (pieceAt b s = some ⟨c, .knight⟩)
    | none => false) ||
  kingOffsets.any (fun o =>
    match shift target o.1 o.2 with
    | some s => decide (pieceAt b s = some ⟨c, .king⟩)
    | none => false) ||
  ([-1, 1] : List Int).any (fun df =>
    match shift target df (-(pawnDir c)) with
    | some s => decide (pieceAt b s = some ⟨c, .pawn⟩)
    | none => false) ||
  diagDirs.any (fun o =>
    match rayFirstPiece b target o.1 o.2 8 with
    | some p => decide (p.color = c ∧ (p.kind = .bishop ∨ p.kind = .queen))
    | none => false) ||
  orthoDirs.any (fun o =>
    match rayFirstPiece b target o.1 o.2 8 with
    | some p => decide (p.color = c ∧ (p.kind = .rook ∨ p.kind = .queen))
    | none => false)

def findKing (b : Board) (c : Color) : Option Nat :=
  (List.range 64).find? (fun sq => decide (pieceAt b sq = some ⟨c, .king⟩))

/-- Modelled from the spec: check detection for the side `c`. -/
def inCheck (b : Board) (c : Color) : Bool :=
  match findKing b c with
  | some ks => squareAttacked b ks c.other
  | none => false

def promoKinds : List PieceKind :=
  [.queen, .rook, .bishop, .knight]

def pawnStartRank : Color → Nat
  | .white => 1
  | .black => 6

def promoRank : Color → Nat
  | .white => 7
  | .black => 0

/-- Pawn moves to the destination expand into four promotion records on the
last rank and a single record otherwise. -/
def mkPawnMoves (src dst : Nat) (cap : Option PieceKind) (c : Color)
    (tag : Option MoveTag) : List Move :=
  if dst / 8 = promoRank c then
    promoKinds.map (fun k => ⟨src, dst, .pawn, cap, some k, tag⟩)
  else
    [⟨src, dst, .pawn, cap, none, tag⟩]

/-- Modelled from the spec: pawn move generation — single and double
pushes, ordinary captures, en-passant captures, promotions. -/
def pawnMoves (pos : Position) (sq : Nat) : List Move :=
  let c := pos.turn
  let fwd :=
    match shift sq 0 (pawnDir c) with
    | some d =>
      if pieceAt pos.board d = none then
        mkPawnMoves sq d none c none ++
          (if sq / 8 = pawnStartRank c then
            match shift d 0 (pawnDir c) with
            | some d2 =>
              if pieceAt pos.board d2 = none then
                [⟨sq, d2, .pawn, none, none, none⟩]
              else []
            | none => []
          else [])
      else []
    | none => []
  let caps := ([-1, 1] : List Int).flatMap (fun df =>
    match shift sq df (pawnDir c) with
    | some d =>
      match pieceAt pos.board d with
      | some p =>
        if p.color = c.other then mkPawnMoves sq d (some p.kind) c none else []
      | none =>
        if pos.epTarget = some d then
          [⟨sq, d, .pawn, some .pawn, none, some .enPassant⟩]
        else []
    | none => [])
  fwd ++ caps

/-- Modelled from the spec: knight and king move generation. -/
def leaperMoves (pos : Position) (sq : Nat) (k : PieceKind)
    (offs : List (Int × Int)) : List Move :=
  offs.flatMap (fun o =>
    match shift sq o.1 o.2 with
    | some d =>
      match pieceAt pos.board d with
      | none => [⟨sq, d, k, none, none, none⟩]
      | some p =>
        if p.color = pos.turn.other then
          [⟨sq, d, k, some p.kind, none, none⟩]
        else []
    | none => [])

/-- Sliding-piece generation along one direction. -/
def slideFrom (pos : Position) (origin : Nat) (k : PieceKind) (df dr : Int) :
    Nat → Nat → List Move
  | cur, fuel + 1 =>
    match shift cur df dr with
    | none => []
    | some d =>
      match pieceAt pos.board d with
      | none => ⟨origin, d, k, none, none, none⟩ :: slideFrom pos origin k df dr d fuel
      | some p =>
        if p.color = pos.turn.other then
          [⟨origin, d, k, some p.kind, none, none⟩]
        else []
  | _, 0 => []

/-- Modelled from the spec: bishop, rook and queen move generation. -/
def sliderMoves (pos : Position) (sq : Nat) (k : PieceKind)
    (dirs : List (Int × Int)) : List Move :=
  dirs.flatMap (fun o => slideFrom pos sq k o.1 o.2 sq 8)

def castleBase : Color → Nat
  | .white => 0
  | .black => 56

/-- Modelled from the spec: kingside castling preconditions — right intact,
transit squares empty, rook and king in place, king neither in check nor
passing through an attacked square. -/
def canCastleKingSide (pos : Position) : Bool :=
  let c := pos.turn
  let base := castleBase c
  (if c = .white then pos.castling.whiteKing else pos.castling.blackKing) &&
  decide (pieceAt pos.board (base + 5) = none) &&
  decide (pieceAt pos.board (base + 6) = none) &&
  decide (pieceAt pos.board (base + 7) = some ⟨c, .rook⟩) &&
  decide (pieceAt pos.board (base + 4) = some ⟨c, .king⟩) &&
  !squareAttacked pos.board (base + 4) c.other &&
  !squareAttacked pos.board (base + 5) c.other &&
  !squareAttacked pos.board (base + 6) c.other

/-- Modelled from the spec: queenside castling preconditions. -/
def canCastleQueenSide (pos : Position) : Bool :=
  let c := pos.turn
  let base := castleBase c
  (if c = .white then pos.castling.whiteQueen else pos.castling.blackQueen) &&
  decide (pieceAt pos.board (base + 1) = none) &&
  decide (pieceAt pos.board (base + 2) = none) &&
  decide (pieceAt pos.board (base + 3) = none) &&
  decide (pieceAt pos.board base = some ⟨c, .rook⟩) &&
  decide (pieceAt pos.board (base + 4) = some ⟨c, .king⟩) &&
  !squareAttacked pos.board (base + 4) c.other &&
  !squareAttacked pos.board (base + 3) c.other &&
  !squareAttacked pos.board (base + 2) c.other

def castleMoves (pos : Position) : List Move :=
  let base := castleBase pos.turn
  (if canCastleKingSide pos then
    [⟨base + 4, base + 6, .king, none, none, some .castleKing⟩]
  else []) ++
  (if canCastleQueenSide pos then
    [⟨base + 4, base + 2, .king, none, none, some .castleQueen⟩]
  else [])

def pieceMoves (pos : Position) (sq : Nat) : List Move :=
  match pieceAt pos.board sq with
  | some p =>
    if p.color = pos.turn then
      match p.kind with
      | .pawn => pawnMoves pos sq
      | .knight => leaperMoves pos sq .knight knightOffsets
      | .king => leaperMoves pos sq .king kingOffsets
      | .bishop => sliderMoves pos sq .bishop diagDirs
      | .rook => sliderMoves pos sq .rook orthoDirs
      | .queen => sliderMoves pos sq .queen (diagDirs ++ orthoDirs)
    else []
  | none => []

/-- Modelled from the spec: pseudo-legal move enumeration for the side to
move. -/
def pseudoMoves (pos : Position) : List Move :=
  (List.range 64).flatMap (fun sq => pieceMoves pos sq) ++ castleMoves pos

/-- Square of the pawn captured en passant, given the capture destination. -/
def epCaptureSq (dst : Nat) (c : Color) : Nat :=
  match c with
  | .white => dst - 8
  | .black => dst + 8

def movedPiece (c : Color) (m : Move) : Piece :=
  match m.promo with
  | some k => ⟨c, k⟩
  | none => ⟨c, m.piece⟩

/-- Modelled from the spec: board part of move application, handling
ordinary moves, promotions, en-passant captures and castling rook moves. -/
def applyBoard (b : Board) (c : Color) (m : Move) : Board :=
  let b1 := setSq b m.src none
  let b2 :=
    match m.tag with
    | some .enPassant => setSq b1 (epCaptureSq m.dst c) none
    | _ => b1
  let b3 := setSq b2 m.dst (some (movedPiece c m))
  match m.tag with
  | some .castleKing =>
    setSq (setSq b3 (castleBase c + 7) none) (castleBase c + 5) (some ⟨c, .rook⟩)
  | some .castleQueen =>
    setSq (setSq b3 (castleBase c) none) (castleBase c + 3) (some ⟨c, .rook⟩)
  | _ => b3

/-- Castling rights are cleared when a move touches a king or rook home
square (moving the piece away, or capturing the rook on it). -/
def clearRights (cr : Castling) (sq : Nat) : Castling :=
  { whiteKing := cr.whiteKing && !(decide (sq = 4) || decide (sq = 7))
    whiteQueen := cr.whiteQueen && !(decide (sq = 4) || decide (sq = 0))
    blackKing := cr.blackKing && !(decide (sq = 60) || decide (sq = 63))
    blackQueen := cr.blackQueen && !(decide (sq = 60) || decide (sq = 56)) }

/-- Modelled from the spec: `apply(position, move)` returns the successor
position — updating placement, castling rights, en-passant target,
half-move clock (reset on capture or pawn move, else incremented) and
full-move number (incremented after black's move), and flipping the side
to move. -/
def applyMove (pos : Position) (m : Move) : Position :=
  let c := pos.turn
  { board := applyBoard pos.board c m
    turn := c.other
    castling := clearRights (clearRights pos.castling m.src) m.dst
    epTarget :=
      if m.piece = .pawn ∧ (m.dst = m.src + 16 ∨ m.src = m.dst + 16) then
        some ((m.src + m.dst) / 2)
      else none
    halfmove := if m.piece = .pawn ∨ m.capture.isSome then 0 else pos.halfmove + 1
    fullmove := if c = .black then pos.fullmove + 1 else pos.fullmove }

/-- Modelled from the spec: legal moves are the pseudo-legal moves that do
not leave the moving side's king in check. -/
def legalMoves (pos : Position) : List Move :=
  (pseudoMoves pos).filter (fun m => !inCheck (applyMove pos m).board pos.turn)

/-- Modelled from the spec: checkmate — no legal move and the king is in
check. -/
def isCheckmate (pos : Position) : Bool :=
  decide (legalMoves pos = []) && inCheck pos.board pos.turn

/-- Modelled from the spec: stalemate — no legal move and the king is not
in check. -/
def isStalemate (pos : Position) : Bool :=
  decide (legalMoves pos = []) && !inCheck pos.board pos.turn

/-- Modelled from the spec: insufficient material — besides the kings at
most one minor piece remains. -/
def insufficientMaterial (b : Board) : Bool :=
  let others := ((List.range 64).filterMap (fun sq => pieceAt b sq)).filter
    (fun p => decide (¬ p.kind = .king))
  (others.all (fun p => decide (p.kind = .knight ∨ p.kind = .bishop))) &&
    decide (others.length ≤ 1)

/-- Modelled from the spec: notation-resolution failures — `MalformedNotation`,
`IllegalMove`, `AmbiguousMove`.  The command layer observes all three as the
same exception (`ValueError`). -/
inductive SanError where
  | malformed
  | illegal
  | ambiguous
  deriving DecidableEq

/-- Constraints extracted from a standard-algebraic-notation token: moving
piece, optional disambiguating source file and rank, capture marker,
destination square, optional promotion piece. -/
structure SanQuery where
  piece : PieceKind
  srcFile : Option Nat
  srcRank : Option Nat
  isCapture : Bool
  dst : Nat
  promo : Option PieceKind
  deriving DecidableEq

/-- Either a castling token or an ordinary constrained token. -/
inductive SanToken where
  | castleKing
  | castleQueen
  | query (q : SanQuery)
  deriving DecidableEq

def fileOfChar (ch : Char) : Option Nat :=
  if 'a' ≤ ch ∧ ch ≤ 'h' then some (ch.toNat - 'a'.toNat) else none

def rankOfChar (ch : Char) : Option Nat :=
  if '1' ≤ ch ∧ ch ≤ '8' then some (ch.toNat - '1'.toNat) else none

def pieceOfChar (ch : Char) : Option PieceKind :=
  if ch = 'N' then some .knight
  else if ch = 'B' then some .bishop
  else if ch = 'R' then some .rook
  else if ch = 'Q' then some .queen
  else if ch = 'K' then some .king
  else none

/-- Check and checkmate decorations at the end of a token are ignored. -/
def stripDecor (cs : List Char) : List Char :=
  (cs.reverse.dropWhile (fun ch => decide (ch = '+' ∨ ch = '#'))).reverse

/-- Split an optional `=X` promotion suffix off the end of a token. -/
def splitPromo (cs : List Char) : Option (List Char × Option PieceKind) :=
  match cs.reverse with
  | last :: eq :: rest =>
    match pieceOfChar last with
    | some k => if eq = '=' then some (rest.reverse, some k) else some (cs, none)
    | none => some (cs, none)
  | _ => some (cs, none)

/-- Leading piece letter of a token; a missing letter means a pawn move. -/
def takePieceChar : List Char → PieceKind × List Char
  | [] => (.pawn, [])
  | ch :: rest =>
    match pieceOfChar ch with
    | some k => (k, rest)
    | none => (.pawn, ch :: rest)

def takeFileChar : List Char → Option Nat × List Char
  | [] => (none, [])
  | ch :: rest =>
    match fileOfChar ch with
    | some f => (some f, rest)
    | none => (none, ch :: rest)

def takeRankChar : List Char → Option Nat × List Char
  | [] => (none, [])
  | ch :: rest =>
    match rankOfChar ch with
    | some r => (some r, rest)
    | none => (none, ch :: rest)

def takeCaptureChar : List Char → Bool × List Char
  | [] => (false, [])
  | ch :: rest => if ch = 'x' then (true, rest) else (false, ch :: rest)

/-- Modelled from the spec: tokenization of a standard-algebraic-notation
string — piece letter, disambiguating file or rank, capture marker,
destination square, promotion suffix, check and checkmate decoration
ignored, castling tokens.  `none` means the token cannot be tokenized. -/
def sanToToken (text : String) : Option SanToken :=
  let cs := stripDecor text.data
  if cs = "O-O-O".data ∨ cs = "0-0-0".data then some .castleQueen
  else if cs = "O-O".data ∨ cs = "0-0".data then some .castleKing
  else
    match splitPromo cs with
    | none => none
    | some (body, promo) =>
      match body.reverse with
      | rankCh :: fileCh :: front =>
        match fileOfChar fileCh, rankOfChar rankCh with
        | some f, some r =>
          let (pk, rest1) := takePieceChar front.reverse
          let (sf, rest2) := takeFileChar rest1
          let (sr, rest3) := takeRankChar rest2
          let (cap, rest4) := takeCaptureChar rest3
          if rest4 = [] then
            some (.query ⟨pk, sf, sr, cap, r * 8 + f, promo⟩)
          else none
        | _, _ => none
      | _ => none

/-- Whether a legal move satisfies the constraints of an ordinary token. -/
def matchesQuery (q : SanQuery) (m : Move) : Bool :=
  decide (m.piece = q.piece) &&
  decide (m.dst = q.dst) &&
  (match q.srcFile with
   | some f => decide (m.src % 8 = f)
   | none => true) &&
  (match q.srcRank with
   | some r => decide (m.src / 8 = r)
   | none => true) &&
  decide (q.isCapture = m.capture.isSome) &&
  decide (m.promo = q.promo) &&
  decide (¬ m.tag = some .castleKing) &&
  decide (¬ m.tag = some .castleQueen)

def matchesToken (t : SanToken) (m : Move) : Bool :=
  match t with
  | .castleKing => decide (m.tag = some .castleKing)
  | .castleQueen => decide (m.tag = some .castleQueen)
  | .query q => matchesQuery q m

/-- Modelled from the spec: `parse(position, text)` resolves a token
against the legal moves of the position — `MalformedNotation` when the
token cannot be tokenized, `IllegalMove` when no legal move matches,
`AmbiguousMove` when more than one matches. -/
def parseSan (pos : Position) (text : String) : Except SanError Move :=
  match sanToToken text with
  | none => .error .malformed
  | some t =>
    match (legalMoves pos).filter (matchesToken t) with
    | [] => .error .illegal
    | [m] => .ok m
    | _ :: _ :: _ => .error .ambiguous

/-- Modelled from the spec: the game session owned by the command layer —
two player identifiers (black is the challenger, white the challenged
player, fixed at creation), a variant tag, the current position, the
append-only move history and the parallel list of position snapshots used
for repetition counting. -/
structure Game where
  player_black_id : Nat
  player_white_id : Nat
  type : String
  position : Position
  history : List Move
  snapshots : List RepKey
  deriving DecidableEq

/-- Modelled from the spec: construction fails with `UnknownVariant` for an
unrecognized variant tag (the command layer observes this as `ValueError`). -/
inductive VariantError where
  | unknownVariant
  deriving DecidableEq

/-- Variant tags the engine recognizes; a missing tag selects standard
chess. -/
def knownVariants : List String :=
  ["standard"]

/-- Modelled from the spec: the standard-chess starting position. -/
def startPos : Position :=
  ⟨startBoard, .white, ⟨true, true, true, true⟩, none, 0, 1⟩

/-- Modelled from the spec: `Game(player_black_id, player_white_id,
game_type)` — rejects an unrecognized variant tag, otherwise creates an
in-progress session on the starting position with an empty history. -/
def Game.new (blackId whiteId : Nat) (tag : Option String) :
    Except VariantError Game :=
  let t := tag.getD "standard"
  if knownVariants.contains t then
    .ok ⟨blackId, whiteId, t, startPos, [], [startPos.key]⟩
  else
    .error .unknownVariant

/-- Modelled from the spec: total move count, displayed by the command
layer after each move. -/
def Game.total_moves (g : Game) : Nat :=
  g.history.length

/-- Modelled from the spec: `order` — the color to move, the acting
player's identifier and the next player's identifier. -/
def Game.order (g : Game) : Color × Nat × Nat :=
  match g.position.turn with
  | .white => (.white, g.player_white_id, g.player_black_id)
  | .black => (.black, g.player_black_id, g.player_white_id)

/-- Modelled from the spec: the fifty-move claim flag — true iff the
half-move clock is at least 100 plies. -/
def Game.can_claim_fifty_moves (g : Game) : Bool :=
  decide (100 ≤ g.position.halfmove)

/-- Modelled from the spec: the threefold-repetition claim flag — true iff
the current position key occurs at least three times among the snapshots
(the current snapshot included, i.e. at least two earlier occurrences). -/
def Game.can_claim_threefold_repetition (g : Game) : Bool :=
  decide (3 ≤ g.snapshots.count g.position.key)

def Game.can_claim_draw (g : Game) : Bool :=
  g.can_claim_fifty_moves || g.can_claim_threefold_repetition

/-- Modelled from the spec: terminal evaluation after a move — checkmate,
stalemate or insufficient material. -/
def Game.is_game_over (g : Game) : Bool :=
  isCheckmate g.position || isStalemate g.position ||
    insufficientMaterial g.position.board

/-- Modelled from the spec: `move_piece` — resolves the token against the
current position, applies the move, appends it and the resulting snapshot
to the history, and reports whether the game is now over.  A resolution
failure leaves the session unchanged. -/
def Game.move_piece (g : Game) (text : String) :
    Except SanError (Bool × Game) :=
  match parseSan g.position text with
  | .error e => .error e
  | .ok m =>
    let p := applyMove g.position m
    let g2 : Game :=
      { g with
          position := p
          history := g.history ++ [m]
          snapshots := g.snapshots ++ [p.key] }
    .ok (g2.is_game_over, g2)

/-- Modelled from the spec: the serialization boundary emits an opaque
structured value (the cog stores `jsonpickle` JSON); callers only decode
what they previously encoded. -/
inductive JVal where
  | jnum (n : Nat)
  | jstr (s : String)
  | jarr (items : List JVal)

def encodeBool (b : Bool) : JVal :=
  .jnum (if b then 1 else 0)

def decodeBool : JVal → Option Bool
  | .jnum 0 => some false
  | .jnum 1 => some true
  | _ => none

def encodeColor : Color → JVal
  | .white => .jnum 0
  | .black => .jnum 1

def decodeColor : JVal → Option Color
  | .jnum 0 => some Color.white
  | .jnum 1 => some Color.black
  | _ => none

def encodeKind : PieceKind → JVal
  | .pawn => .jnum 0
  | .knight => .jnum 1
  | .bishop => .jnum 2
  | .rook => .jnum 3
  | .queen => .jnum 4
  | .king => .jnum 5

def decodeKind : JVal → Option PieceKind
  | .jnum 0 => some PieceKind.pawn
  | .jnum 1 => some PieceKind.knight
  | .jnum 2 => some PieceKind.bishop
  | .jnum 3 => some PieceKind.rook
  | .jnum 4 => some PieceKind.queen
  | .jnum 5 => some PieceKind.king
  | _ => none

def encodeCell : Option Piece → JVal
  | none => .jarr []
  | some p => .jarr [encodeColor p.color, encodeKind p.kind]

def decodeCell : JVal → Option (Option Piece)
  | .jarr [] => some none
  | .jarr [c, k] => do
    let c2 ← decodeColor c
    let k2 ← decodeKind k
    some (some ⟨c2, k2⟩)
  | _ => none

def encodeOptNat : Option Nat → JVal
  | none => .jarr []
  | some n => .jarr [.jnum n]

def decodeOptNat : JVal → Option (Option Nat)
  | .jarr [] => some none
  | .jarr [.jnum n] => some (some n)
  | _ => none

def encodeOptKind : Option PieceKind → JVal
  | none => .jarr []
  | some k => .jarr [encodeKind k]

def decodeOptKind : JVal → Option (Option PieceKind)
  | .jarr [] => some none
  | .jarr [k] => do
    let k2 ← decodeKind k
    some (some k2)
  | _ => none

def encodeTag : MoveTag → JVal
  | .castleKing => .jnum 0
  | .castleQueen => .jnum 1
  | .enPassant => .jnum 2

def decodeTag : JVal → Option MoveTag
  | .jnum 0 => some MoveTag.castleKing
  | .jnum 1 => some MoveTag.castleQueen
  | .jnum 2 => some MoveTag.enPassant
  | _ => none

def encodeOptTag : Option MoveTag → JVal
  | none => .jarr []
  | some t => .jarr [encodeTag t]

def decodeOptTag : JVal → Option (Option MoveTag)
  | .jarr [] => some none
  | .jarr [t] => do
    let t2 ← decodeTag t
    some (some t2)
  | _ => none

def encodeCastlingRights (cr : Castling) : JVal :=
  .jarr [encodeBool cr.whiteKing, encodeBool cr.whiteQueen,
    encodeBool cr.blackKing, encodeBool cr.blackQueen]

def decodeCastlingRights : JVal → Option Castling
  | .jarr [a, b, c, d] => do
    let a2 ← decodeBool a
    let b2 ← decodeBool b
    let c2 ← decodeBool c
    let d2 ← decodeBool d
    some ⟨a2, b2, c2, d2⟩
  | _ => none

/-- Decode a list of values elementwise, failing if any element fails. -/
def decodeListWith {α : Type} (f : JVal → Option α) : List JVal → Option (List α)
  | [] => some []
  | x :: rest => do
    let a ← f x
    let l ← decodeListWith f rest
    some (a :: l)

def encodeBoard (b : Board) : JVal :=
  .jarr (b.map encodeCell)

def decodeBoard : JVal → Option Board
  | .jarr items => decodeListWith decodeCell items
  | _ => none

def encodePosition (pos : Position) : JVal :=
  .jarr [encodeBoard pos.board, encodeColor pos.turn,
    encodeCastlingRights pos.castling, encodeOptNat pos.epTarget,
    .jnum pos.halfmove, .jnum pos.fullmove]

def decodePosition : JVal → Option Position
  | .jarr [b, t, cr, ep, .jnum hm, .jnum fm] => do
    let b2 ← decodeBoard b
    let t2 ← decodeColor t
    let cr2 ← decodeCastlingRights cr
    let ep2 ← decodeOptNat ep
    some ⟨b2, t2, cr2, ep2, hm, fm⟩
  | _ => none

def encodeMove (m : Move) : JVal :=
  .jarr [.jnum m.src, .jnum m.dst, encodeKind m.piece,
    encodeOptKind m.capture, encodeOptKind m.promo, encodeOptTag m.tag]

def decodeMove : JVal → Option Move
  | .jarr [.jnum src, .jnum dst, pk, cap, pr, tg] => do
    let pk2 ← decodeKind pk
    let cap2 ← decodeOptKind cap
    let pr2 ← decodeOptKind pr
    let tg2 ← decodeOptTag tg
    some ⟨src, dst, pk2, cap2, pr2, tg2⟩
  | _ => none

def encodeKey (k : RepKey) : JVal :=
  .jarr [encodeBoard k.board, encodeColor k.turn,
    encodeCastlingRights k.castling, encodeOptNat k.epTarget]

def decodeKey : JVal → Option RepKey
  | .jarr [b, t, cr, ep] => do
    let b2 ← decodeBoard b
    let t2 ← decodeColor t
    let cr2 ← decodeCastlingRights cr
    let ep2 ← decodeOptNat ep
    some ⟨b2, t2, cr2, ep2⟩
  | _ => none

/-- Modelled from the spec: `encode(session)` — the full observable state
of a session: player identifiers, variant tag, position, history and
snapshots (claim flags and move count are derived from these). -/
def encodeGame (g : Game) : JVal :=
  .jarr [.jnum g.player_black_id, .jnum g.player_white_id, .jstr g.type,
    encodePosition g.position, .jarr (g.history.map encodeMove),
    .jarr (g.snapshots.map encodeKey)]

/-- Modelled from the spec: `decode(bytes)` — inverse of `encodeGame`;
fails on anything that is not an encoded session. -/
def decodeGame : JVal → Option Game
  | .jarr [.jnum bid, .jnum wid, .jstr t, pos, .jarr hist, .jarr snaps] => do
    let pos2 ← decodePosition pos
    let hist2 ← decodeListWith decodeMove hist
    let snaps2 ← decodeListWith decodeKey snaps
    some ⟨bid, wid, t, pos2, hist2, snaps2⟩
  | _ => none

/-- The per-channel game store the cog persists: named sessions
(`Games = Dict[str, Game]` in `chessgame.py`). -/
abbrev GameStore := List (String × Game)

def encodeEntry (e : String × Game) : JVal :=
  .jarr [.jstr e.1, encodeGame e.2]

def decodeEntry : JVal → Option (String × Game)
  | .jarr [.jstr name, g] => do
    let g2 ← decodeGame g
    some (name, g2)
  | _ => none

/-- Serialization of the whole store, as `_set_games` pickles the
name-to-game mapping. -/
def encodeStore (gs : GameStore) : JVal :=
  .jarr (gs.map encodeEntry)

def decodeStore : JVal → Option GameStore
  | .jarr items => decodeListWith decodeEntry items
  | _ => none

/-- Lookup of `games[game_name]` (`KeyError` becomes `none`). -/
def lookupGame (gs : GameStore) (name : String) : Option Game :=
  match gs.find? (fun e => decide (e.1 = name)) with
  | some e => some e.2
  | none => none

/-- Assignment `games[game_name] = game`: replaces an existing binding or
appends a new one. -/
def setGame (gs : GameStore) (name : String) (g : Game) : GameStore :=
  match gs with
  | [] => [(name, g)]
  | e :: rest =>
    if e.1 = name then (name, g) :: rest else e :: setGame rest name g

/-- Deletion `del games[game_name]`. -/
def delGame (gs : GameStore) (name : String) : GameStore :=
  gs.filter (fun e => decide (¬ e.1 = name))

/-- `ChessGame._fifty_moves` in `chessgame.py`. -/
def fiftyMovesLabel : String :=
  "Fifty moves"

/-- `ChessGame._threefold_repetition` in `chessgame.py`. -/
def threefoldLabel : String :=
  "Threefold repetition"

/-- Outcome of the `chess start` command (`ChessGame.start_game`). -/
inductive StartOutcome where
  | selfChallenge
  | invalidGameType
  | started (name : String)
  deriving DecidableEq

/-- Outcome of the `chess move` command (`ChessGame.move_piece`).
`gameOverError` is the spec's `GameOver` failure; it is part of the error
taxonomy the specification names but the command layer never produces it
(a finished game is deleted instead). -/
inductive MoveOutcome where
  | gameNotFound
  | notYourTurn
  | notAPlayer
  | invalidMove
  | gameOverError
  | moved (isOver : Bool)
  deriving DecidableEq

def MoveOutcome.isFailure : MoveOutcome → Bool
  | .moved _ => false
  | _ => true

/-- Outcome of the `chess draw claim` command (`ChessGame.claim_draw`).
`gameOverError` is the spec's `GameOver` failure, never produced by the
command layer. -/
inductive ClaimOutcome where
  | gameNotFound
  | drawn (reason : String)
  | notClaimable
  | gameOverError
  deriving DecidableEq

/-- Outcome of the `chess resign` command (`ChessGame.resign`). -/
inductive ResignOutcome where
  | gameNotFound
  | notAPlayer
  | cancelled
  | timedOut
  | resigned (winnerId : Nat)
  deriving DecidableEq

/-- Outcome of the `chess draw byagreement` command
(`ChessGame.by_agreement`). -/
inductive AgreementOutcome where
  | gameNotFound
  | notAPlayer
  | accepted
  | declined
  | timedOut
  deriving DecidableEq

/-- Candidate game names tried by `start_game`: the base name first
(`suffix = ''`), then the base name suffixed with `1`, `2`, ... -/
def gameNameCandidate (base : String) (k : Nat) : String :=
  if k = 0 then base else base ++ Nat.repr k

/-- The `while game_name + suffix in games.keys()` loop of `start_game`,
with explicit fuel (the loop always terminates: a finite store cannot
contain every candidate). -/
def freshNameLoop (gs : GameStore) (base : String) : Nat → Nat → String
  | k, 0 => gameNameCandidate base k
  | k, fuel + 1 =>
    if lookupGame gs (gameNameCandidate base k) = none then
      gameNameCandidate base k
    else
      freshNameLoop gs base (k + 1) fuel

def freshGameName (gs : GameStore) (base : String) : String :=
  freshNameLoop gs base 0 (gs.length + 1)

/-- `if not game_name: game_name = 'game'` — a missing or empty name
defaults to `game`. -/
def baseNameOf (gameName : Option String) : String :=
  match gameName with
  | some n => if n = "" then "game" else n
  | none => "game"

/-- `ChessGame.start_game` (`chessgame.py` lines 55-105): the challenger
(`ctx.author`) plays black, the challenged member plays white; a player
cannot challenge themself; the game name is made unique; an invalid game
type is rejected before any session exists; otherwise the new game is
stored. -/
def cogStartGame (gs : GameStore) (authorId otherId : Nat)
    (gameName : Option String) (gameType : Option String) :
    StartOutcome × GameStore :=
  if authorId = otherId then
    (.selfChallenge, gs)
  else
    let name := freshGameName gs (baseNameOf gameName)
    match Game.new authorId otherId gameType with
    | .error _ => (.invalidGameType, gs)
    | .ok g => (.started name, setGame gs name g)

/-- `ChessGame.move_piece` (`chessgame.py` lines 179-271): a missing game
name is reported; the acting member is resolved from `game.order`; only
the acting player may move; an engine `ValueError` is reported as an
invalid move and nothing is saved; on success the updated game is saved
and a finished game is deleted from the store. -/
def cogMovePiece (gs : GameStore) (name : String) (authorId : Nat)
    (san : String) : MoveOutcome × GameStore :=
  match lookupGame gs name with
  | none => (.gameNotFound, gs)
  | some game =>
    let ord := game.order
    let turnMember :=
      if ord.2.1 = game.player_white_id then game.player_white_id
      else game.player_black_id
    let nextMember :=
      if ord.2.1 = game.player_white_id then game.player_black_id
      else game.player_white_id
    if authorId = turnMember then
      match game.move_piece san with
      | .error _ => (.invalidMove, gs)
      | .ok (isOver, g2) =>
        let gs1 := setGame gs name g2
        let gs2 := if isOver then delGame gs1 name else gs1
        (.moved isOver, gs2)
    else if authorId = nextMember then
      (.notYourTurn, gs)
    else
      (.notAPlayer, gs)

/-- `ChessGame.claim_draw` (`chessgame.py` lines 356-396): the draw is
granted and the game deleted exactly when the claim label matches a claim
flag that is currently set; otherwise nothing changes. -/
def cogClaimDraw (gs : GameStore) (name claimType : String) :
    ClaimOutcome × GameStore :=
  match lookupGame gs name with
  | none => (.gameNotFound, gs)
  | some game =>
    if fiftyMovesLabel = claimType ∧ game.can_claim_fifty_moves then
      (.drawn claimType, delGame gs name)
    else if threefoldLabel = claimType ∧ game.can_claim_threefold_repetition then
      (.drawn claimType, delGame gs name)
    else
      (.notClaimable, gs)

/-- `ChessGame.resign` (`chessgame.py` lines 273-350): only a player of the
game may resign; without `confirm` the author must confirm by reaction
(`reaction = none` models a timeout); on resignation the other player wins
and the game is deleted — the current turn is never consulted. -/
def cogResign (gs : GameStore) (name : String) (authorId : Nat)
    (confirm : Bool) (reaction : Option Bool) : ResignOutcome × GameStore :=
  match lookupGame gs name with
  | none => (.gameNotFound, gs)
  | some game =>
    if ¬ authorId = game.player_white_id ∧ ¬ authorId = game.player_black_id then
      (.notAPlayer, gs)
    else if ¬ confirm ∧ reaction = some false then
      (.cancelled, gs)
    else if ¬ confirm ∧ reaction = none then
      (.timedOut, gs)
    else
      let winner :=
        if authorId = game.player_white_id then game.player_black_id
        else game.player_white_id
      (.resigned winner, delGame gs name)

/-- `ChessGame.by_agreement` (`chessgame.py` lines 398-459): a draw offer
by a player of the game; an accepted offer deletes the game, a declined or
timed-out offer changes nothing. -/
def cogDrawByAgreement (gs : GameStore) (name : String) (authorId : Nat)
    (reaction : Option Bool) : AgreementOutcome × GameStore :=
  match lookupGame gs name with
  | none => (.gameNotFound, gs)
  | some game =>
    if authorId = game.player_black_id ∨ authorId = game.player_white_id then
      match reaction with
      | some true => (.accepted, delGame gs name)
      | some false => (.declined, gs)
      | none => (.timedOut, gs)
    else
      (.notAPlayer, gs)

/-- The session used in the concrete witnesses: a fresh standard game
between player 1 (black, the challenger) and player 2 (white). -/
def demoGame : Game :=
  ⟨1, 2, "standard", startPos, [], [startPos.key]⟩

def demoStore : GameStore :=
  [("game", demoGame)]

/-- The move `e4` as resolved from the starting position. -/
def demoMove : Move :=
  ⟨12, 28, .pawn, none, none, none⟩

def demoMovedGame : Game :=
  { demoGame with
      position := applyMove startPos demoMove
      history := [demoMove]
      snapshots := [startPos.key, (applyMove startPos demoMove).key] }

/-- A session whose half-move clock has reached 100 plies, so the
fifty-move draw is claimable. -/
def demoDrawGame : Game :=
  ⟨1, 2, "standard", { startPos with halfmove := 100 }, [], [startPos.key]⟩

/-- A session with black to move, used to show resignation ignores the
turn. -/
def demoBlackGame : Game :=
  ⟨1, 2, "standard", { startPos with turn := .black }, [], []⟩

def demoBlackStore : GameStore :=
  [("game", demoBlackGame)]

theorem lookupGame_cons (e : String × Game) (rest : GameStore) (name : String) :
    lookupGame (e :: rest) name =
      if e.1 = name then some e.2 else lookupGame rest name := by
  by_cases h : e.1 = name <;> simp [lookupGame, List.find?_cons, h]

theorem lookupGame_delGame_self (gs : GameStore) (name : String) :
    lookupGame (delGame gs name) name = none := by
  induction gs with
  | nil => rfl
  | cons e rest ih =>
    simp only [delGame, List.filter_cons] at ih ⊢
    by_cases h : e.1 = name
    · simpa [h] using ih
    · simpa [h, lookupGame_cons] using ih

theorem lookupGame_setGame_self (gs : GameStore) (name : String) (g : Game) :
    lookupGame (setGame gs name g) name = some g := by
  induction gs with
  | nil => simp [setGame, lookupGame_cons]
  | cons e rest ih =>
    by_cases h : e.1 = name
    · simp [setGame, h, lookupGame_cons]
    · simp [setGame, h, lookupGame_cons, ih]

theorem lookupGame_setGame_other (gs : GameStore) (name : String) (g : Game)
    (m : String) (h : ¬ m = name) :
    lookupGame (setGame gs name g) m = lookupGame gs m := by
  have h2 : ¬ name = m := fun hh => h hh.symm
  induction gs with
  | nil => simp [setGame, lookupGame_cons, h2]
  | cons e rest ih =>
    by_cases he : e.1 = name
    · subst he
      simp [setGame, lookupGame_cons, h2]
    · simp [setGame, he, lookupGame_cons, ih]

@[simp] theorem decodeBool_encodeBool (b : Bool) :
    decodeBool (encodeBool b) = some b := by
  cases b <;> rfl

@[simp] theorem decodeColor_encodeColor (c : Color) :
    decodeColor (encodeColor c) = some c := by
  cases c <;> rfl

@[simp] theorem decodeKind_encodeKind (k : PieceKind) :
    decodeKind (encodeKind k) = some k := by
  cases k <;> rfl

@[simp] theorem decodeCell_encodeCell (p : Option Piece) :
    decodeCell (encodeCell p) = some p := by
  rcases p with _ | ⟨c, k⟩
  · rfl
  · cases c <;> cases k <;> rfl

@[simp] theorem decodeOptNat_encodeOptNat (o : Option Nat) :
    decodeOptNat (encodeOptNat o) = some o := by
  rcases o with _ | n <;> rfl

@[simp] theorem decodeOptKind_encodeOptKind (o : Option PieceKind) :
    decodeOptKind (encodeOptKind o) = some o := by
  rcases o with _ | k
  · rfl
  · cases k <;> rfl

@[simp] theorem decodeTag_encodeTag (t : MoveTag) :
    decodeTag (encodeTag t) = some t := by
  cases t <;> rfl

@[simp] theorem decodeOptTag_encodeOptTag (o : Option MoveTag) :
    decodeOptTag (encodeOptTag o) = some o := by
  rcases o with _ | t
  · rfl
  · cases t <;> rfl

@[simp] theorem decodeCastlingRights_encodeCastlingRights (cr : Castling) :
    decodeCastlingRights (encodeCastlingRights cr) = some cr := by
  rcases cr with ⟨a, b, c, d⟩
  simp [encodeCastlingRights, decodeCastlingRights]

@[simp] theorem decodeListWith_cells (l : List (Option Piece)) :
    decodeListWith decodeCell (l.map encodeCell) = some l := by
  induction l with
  | nil => rfl
  | cons x rest ih => simp [decodeListWith, ih]

@[simp] theorem decodeBoard_encodeBoard (b : Board) :
    decodeBoard (encodeBoard b) = some b := by
  simp [encodeBoard, decodeBoard]

@[simp] theorem decodePosition_encodePosition (pos : Position) :
    decodePosition (encodePosition pos) = some pos := by
  rcases pos with ⟨b, t, cr, ep, hm, fm⟩
  simp [encodePosition, decodePosition]

@[simp] theorem decodeMove_encodeMove (m : Move) :
    decodeMove (encodeMove m) = some m := by
  rcases m with ⟨src, dst, pk, cap, pr, tg⟩
  simp [encodeMove, decodeMove]

@[simp] theorem decodeKey_encodeKey (k : RepKey) :
    decodeKey (encodeKey k) = some k := by
  rcases k with ⟨b, t, cr, ep⟩
  simp [encodeKey, decodeKey]

@[simp] theorem decodeListWith_moves (l : List Move) :
    decodeListWith decodeMove (l.map encodeMove) = some l := by
  induction l with
  | nil => rfl
  | cons x rest ih => simp [decodeListWith, ih]

@[simp] theorem decodeListWith_keys (l : List RepKey) :
    decodeListWith decodeKey (l.map encodeKey) = some l := by
  induction l with
  | nil => rfl
  | cons x rest ih => simp [decodeListWith, ih]

@[simp] theorem decodeGame_encodeGame (g : Game) :
    decodeGame (encodeGame g) = some g := by
  rcases g with ⟨bid, wid, t, pos, hist, snaps⟩
  simp [encodeGame, decodeGame]

@[simp] theorem decodeEntry_encodeEntry (e : String × Game) :
    decodeEntry (encodeEntry e) = some e := by
  rcases e with ⟨name, g⟩
  simp [encodeEntry, decodeEntry]

@[simp] theorem decodeListWith_entries (l : GameStore) :
    decodeListWith decodeEntry (l.map encodeEntry) = some l := by
  induction l with
  | nil => rfl
  | cons x rest ih => simp [decodeListWith, ih]

@[simp] theorem decodeStore_encodeStore (gs : GameStore) :
    decodeStore (encodeStore gs) = some gs := by
  simp [encodeStore, decodeStore]

/-- Claim C5: decoding the encoding of a game session — and of a whole
per-channel store, as saved and reloaded by `_set_games`/`_get_games` —
reproduces every queryable field exactly (position, history, snapshots and
hence both claim flags, player identifiers and variant). -/
theorem serialization_roundtrip :
    (∀ g : Game, decodeGame (encodeGame g) = some g) ∧
    (∀ gs : GameStore, decodeStore (encodeStore gs) = some gs) :=
  ⟨fun g => decodeGame_encodeGame g, fun gs => decodeStore_encodeStore gs⟩

/-- Claim C10: a member challenging themself is rejected by `start_game`
before any session is constructed, and the stored games mapping is
returned unchanged. -/
theorem self_challenge_rejected (gs : GameStore) (a : Nat)
    (gameName gameType : Option String) :
    cogStartGame gs a a gameName gameType = (.selfChallenge, gs) := by
  simp [cogStartGame]

/-- Claim C2: `claim_draw` succeeds — ending the game — exactly when the
claim label names a flag that is currently set; for any other reason
string the call fails with the not-claimable report and the stored game
and store are unchanged. -/
theorem claim_draw_iff_flag (gs : GameStore) (name : String) (g : Game)
    (reason : String) (hg : lookupGame gs name = some g) :
    (((reason = fiftyMovesLabel ∧ g.can_claim_fifty_moves = true) ∨
      (reason = threefoldLabel ∧ g.can_claim_threefold_repetition = true)) →
      cogClaimDraw gs name reason = (.drawn reason, delGame gs name)) ∧
    (¬ (reason = fiftyMovesLabel ∧ g.can_claim_fifty_moves = true) →
     ¬ (reason = threefoldLabel ∧ g.can_claim_threefold_repetition = true) →
      cogClaimDraw gs name reason = (.notClaimable, gs) ∧
        lookupGame gs name = some g) := by
  unfold cogClaimDraw
  rw [hg]
  constructor
  · rintro (⟨rfl, hf⟩ | ⟨rfl, ht⟩)
    · simp [hf]
    · have h50 : ¬ (fiftyMovesLabel = threefoldLabel ∧
          g.can_claim_fifty_moves = true) := by
        rintro ⟨h, _⟩
        exact absurd h (by decide)
      simp [h50, ht]
  · intro h1 h2
    have h1s : ¬ (fiftyMovesLabel = reason ∧ g.can_claim_fifty_moves = true) :=
      fun hh => h1 ⟨hh.1.symm, hh.2⟩
    have h2s : ¬ (threefoldLabel = reason ∧
        g.can_claim_threefold_repetition = true) :=
      fun hh => h2 ⟨hh.1.symm, hh.2⟩
    simp [h1s, h2s, hg]

/-- Claim C2 witness: on a game whose half-move clock is 100 the fifty-move
claim succeeds and deletes the game, while an unrecognized reason string is
rejected with the store unchanged. -/
theorem claim_draw_iff_flag_witness :
    cogClaimDraw [("g", demoDrawGame)] "g" fiftyMovesLabel =
      (.drawn fiftyMovesLabel, []) ∧
    cogClaimDraw [("g", demoDrawGame)] "g" "bogus" =
      (.notClaimable, [("g", demoDrawGame)]) :=
  ⟨(claim_draw_iff_flag [("g", demoDrawGame)] "g" demoDrawGame
      fiftyMovesLabel rfl).1 (Or.inl ⟨rfl, by decide⟩),
   ((claim_draw_iff_flag [("g", demoDrawGame)] "g" demoDrawGame
      "bogus" rfl).2 (by decide) (by decide)).1⟩

/-- Claim C3: every failed `move_piece` command — unknown game, wrong
turn, not a player, or an engine resolution failure — returns the
persisted store exactly as it was. -/
theorem failed_move_leaves_store (gs : GameStore) (name : String) (a : Nat)
    (san : String) (out : MoveOutcome) (gs2 : GameStore)
    (h : cogMovePiece gs name a san = (out, gs2))
    (hfail : out.isFailure = true) : gs2 = gs := by
  unfold cogMovePiece at h
  cases hl : lookupGame gs name with
  | none =>
    rw [hl] at h
    cases h
    rfl
  | some game =>
    rw [hl] at h
    dsimp only at h
    by_cases hTurn : a = (if game.order.2.1 = game.player_white_id then
        game.player_white_id else game.player_black_id)
    · rw [if_pos hTurn] at h
      cases hm : game.move_piece san with
      | error e =>
        rw [hm] at h
        cases h
        rfl
      | ok r =>
        rcases r with ⟨isOver, g2x⟩
        rw [hm] at h
        dsimp only at h
        cases h
        simp [MoveOutcome.isFailure] at hfail
    · rw [if_neg hTurn] at h
      by_cases hNext : a = (if game.order.2.1 = game.player_white_id then
          game.player_black_id else game.player_white_id)
      · rw [if_pos hNext] at h
        cases h
        rfl
      · rw [if_neg hNext] at h
        cases h
        rfl

/-- Claim C3 witness: a malformed token submitted by the acting player
fails and leaves the store untouched. -/
theorem failed_move_leaves_store_witness :
    cogMovePiece demoStore "game" 2 "zzz" = (.invalidMove, demoStore) ∧
    MoveOutcome.invalidMove.isFailure = true ∧ demoStore = demoStore :=
  ⟨rfl, rfl, failed_move_leaves_store demoStore "game" 2 "zzz"
    .invalidMove demoStore rfl rfl⟩

/-- Claim C4: `resign` is available to either player with no condition on
the turn: for every stored game — whichever side is to move — a confirmed
resignation by the white player makes black the winner and one by the
black player makes white the winner, and the game is deleted. -/
theorem resign_other_player_wins (gs : GameStore) (name : String) (g : Game)
    (a : Nat) (confirm : Bool) (reaction : Option Bool)
    (hg : lookupGame gs name = some g)
    (hc : confirm = true ∨ reaction = some true) :
    (a = g.player_white_id →
      cogResign gs name a confirm reaction =
        (.resigned g.player_black_id, delGame gs name)) ∧
    (a = g.player_black_id → ¬ a = g.player_white_id →
      cogResign gs name a confirm reaction =
        (.resigned g.player_white_id, delGame gs name)) := by
  unfold cogResign
  rw [hg]
  constructor
  · rintro rfl
    rcases hc with rfl | rfl <;> simp
  · rintro rfl hne
    rcases hc with rfl | rfl <;> simp [hne]

/-- Claim C4 witness: in one game white to move and in another black to
move, a resignation by the black player and one by the white player each
end the game with the other player as winner, the turn notwithstanding. -/
theorem resign_other_player_wins_witness :
    cogResign demoStore "game" 1 true none = (.resigned 2, []) ∧
    cogResign demoBlackStore "game" 2 false (some true) = (.resigned 1, []) :=
  ⟨(resign_other_player_wins demoStore "game" demoGame 1 true none rfl
      (Or.inl rfl)).2 rfl (by decide),
   (resign_other_player_wins demoBlackStore "game" demoBlackGame 2 false
      (some true) rfl (Or.inr rfl)).1 rfl⟩

/-- Claim C6: for distinct players and an unrecognized variant tag,
`start_game` reports an invalid game type; no session is created and the
stored games mapping is unchanged. -/
theorem unknown_variant_rejected (gs : GameStore) (a b : Nat)
    (gameName : Option String) (t : String) (hab : ¬ a = b)
    (ht : ¬ t ∈ knownVariants) :
    cogStartGame gs a b gameName (some t) = (.invalidGameType, gs) := by
  simp [cogStartGame, hab, Game.new, ht]

/-- Claim C6 witness: starting a game with the unrecognized tag `atomic`
fails and stores nothing. -/
theorem unknown_variant_rejected_witness :
    cogStartGame [] 1 2 none (some "atomic") = (.invalidGameType, []) :=
  unknown_variant_rejected [] 1 2 none "atomic" (by decide)
    (by simp [knownVariants])

/-- Claim C7: a fresh session has white to move, with the white player the
acting player; and every successfully applied move flips the side to move
to the opposite color. -/
theorem white_first_then_alternate :
    (∀ b w tag g, Game.new b w tag = .ok g →
      g.position.turn = Color.white ∧
      g.order = (Color.white, g.player_white_id, g.player_black_id)) ∧
    (∀ g san over g2, Game.move_piece g san = .ok (over, g2) →
      g2.position.turn = g.position.turn.other) := by
  constructor
  · intro b w tag g h
    unfold Game.new at h
    dsimp only at h
    split_ifs at h
    injection h with h2
    subst h2
    exact ⟨rfl, rfl⟩
  · intro g san over g2 h
    unfold Game.move_piece at h
    cases hp : parseSan g.position san with
    | error e =>
      rw [hp] at h
      cases h
    | ok m =>
      rw [hp] at h
      dsimp only at h
      cases h
      rfl

/-- Claim C7 witness: the fresh demo session has white first, and after
white's `e4` the side to move is black. -/
theorem white_first_then_alternate_witness :
    demoGame.position.turn = Color.white ∧
    demoGame.order = (Color.white, demoGame.player_white_id,
      demoGame.player_black_id) ∧
    demoMovedGame.position.turn = demoGame.position.turn.other :=
  ⟨(white_first_then_alternate.1 1 2 none demoGame rfl).1,
   (white_first_then_alternate.1 1 2 none demoGame rfl).2,
   white_first_then_alternate.2 demoGame "e4" false demoMovedGame rfl⟩

/-- Claim C8: the fifty-move claim flag holds exactly when the half-move
clock is at least 100; the clock resets to zero exactly on a pawn move or
a capture and increments by one otherwise; consequently after a quiet move
the flag holds exactly when the clock had already reached 99, so the flag
becomes true exactly at 100 and stays true until a capture or pawn move
resets the clock. -/
theorem fifty_move_flag :
    (∀ g : Game, g.can_claim_fifty_moves = true ↔ 100 ≤ g.position.halfmove) ∧
    (∀ (pos : Position) (m : Move), (applyMove pos m).halfmove =
      if m.piece = .pawn ∨ m.capture.isSome then 0 else pos.halfmove + 1) ∧
    (∀ (pos : Position) (m : Move),
      (100 ≤ (applyMove pos m).halfmove ↔
        (¬ (m.piece = .pawn ∨ m.capture.isSome = true) ∧
          99 ≤ pos.halfmove))) := by
  refine ⟨fun g => ?_, fun pos m => ?_, fun pos m => ?_⟩
  · simp [Game.can_claim_fifty_moves]
  · rfl
  · by_cases h : m.piece = .pawn ∨ m.capture.isSome = true
    · simp only [applyMove]
      simp [h]
    · simp only [applyMove]
      simp only [h, if_false]
      constructor
      · intro hle
        exact ⟨by simp, by omega⟩
      · rintro ⟨-, hle⟩
        omega

/-- Claim C1 counterexample: a game over by resignation (a terminal
condition) is deleted from the store, and a subsequent `move_piece` or
`claim_draw` on it fails with the game-does-not-exist report — not with
the spec's `GameOver` error. -/
theorem terminal_not_gameover_error :
    cogResign demoStore "game" 1 true none = (.resigned 2, []) ∧
    cogMovePiece [] "game" 2 "e4" = (.gameNotFound, []) ∧
    ¬ MoveOutcome.gameNotFound = MoveOutcome.gameOverError ∧
    cogClaimDraw [] "game" fiftyMovesLabel = (.gameNotFound, []) ∧
    ¬ ClaimOutcome.gameNotFound = ClaimOutcome.gameOverError :=
  ⟨rfl, rfl, by decide, rfl, by decide⟩

/-- Claim C1 (amended): every terminal outcome — a move that finishes the
game, a resignation, a granted draw claim, an accepted draw offer —
deletes the game from the channel store, and any subsequent `move_piece`
or `claim_draw` on a game absent from the store fails with the
game-does-not-exist report and returns the store unchanged. -/
theorem terminal_deleted_then_not_found :
    (∀ gs name a san over gs2, cogMovePiece gs name a san = (.moved over, gs2) →
      over = true → lookupGame gs2 name = none) ∧
    (∀ gs name a confirm reaction w gs2,
      cogResign gs name a confirm reaction = (.resigned w, gs2) →
      lookupGame gs2 name = none) ∧
    (∀ gs name t r gs2, cogClaimDraw gs name t = (.drawn r, gs2) →
      lookupGame gs2 name = none) ∧
    (∀ gs name a reaction gs2,
      cogDrawByAgreement gs name a reaction = (.accepted, gs2) →
      lookupGame gs2 name = none) ∧
    (∀ gs name a san, lookupGame gs name = none →
      cogMovePiece gs name a san = (.gameNotFound, gs)) ∧
    (∀ gs name t, lookupGame gs name = none →
      cogClaimDraw gs name t = (.gameNotFound, gs)) := by
  refine ⟨?_, ?_, ?_, ?_, ?_, ?_⟩
  · intro gs name a san over gs2 h hover
    subst hover
    unfold cogMovePiece at h
    cases hl : lookupGame gs name with
    | none =>
      rw [hl] at h
      injection h with h1 h2
      cases h1
    | some game =>
      rw [hl] at h
      dsimp only at h
      by_cases hTurn : a = (if game.order.2.1 = game.player_white_id then
          game.player_white_id else game.player_black_id)
      · rw [if_pos hTurn] at h
        cases hm : game.move_piece san with
        | error e =>
          rw [hm] at h
          injection h with h1 h2
          cases h1
        | ok r =>
          rcases r with ⟨isOver, g2x⟩
          rw [hm] at h
          dsimp only at h
          injection h with h1 h2
          injection h1 with h1e
          subst h1e
          rw [← h2]
          simp [lookupGame_delGame_self]
      · rw [if_neg hTurn] at h
        by_cases hNext : a = (if game.order.2.1 = game.player_white_id then
            game.player_black_id else game.player_white_id)
        · rw [if_pos hNext] at h
          injection h with h1 h2
          cases h1
        · rw [if_neg hNext] at h
          injection h with h1 h2
          cases h1
  · intro gs name a confirm reaction w gs2 h
    unfold cogResign at h
    cases hl : lookupGame gs name with
    | none =>
      rw [hl] at h
      injection h with h1 h2
      cases h1
    | some game =>
      rw [hl] at h
      dsimp only at h
      by_cases hp : (¬ a = game.player_white_id ∧ ¬ a = game.player_black_id)
      · rw [if_pos hp] at h
        injection h with h1 h2
        cases h1
      · rw [if_neg hp] at h
        by_cases hc : (¬ confirm = true ∧ reaction = some false)
        · rw [if_pos hc] at h
          injection h with h1 h2
          cases h1
        · rw [if_neg hc] at h
          by_cases ht : (¬ confirm = true ∧ reaction = none)
          · rw [if_pos ht] at h
            injection h with h1 h2
            cases h1
          · rw [if_neg ht] at h
            injection h with h1 h2
            rw [← h2]
            exact lookupGame_delGame_self gs name
  · intro gs name t r gs2 h
    unfold cogClaimDraw at h
    cases hl : lookupGame gs name with
    | none =>
      rw [hl] at h
      injection h with h1 h2
      cases h1
    | some game =>
      rw [hl] at h
      dsimp only at h
      by_cases h50 : (fiftyMovesLabel = t ∧ game.can_claim_fifty_moves = true)
      · rw [if_pos h50] at h
        injection h with h1 h2
        rw [← h2]
        exact lookupGame_delGame_self gs name
      · rw [if_neg h50] at h
        by_cases h3 : (threefoldLabel = t ∧
            game.can_claim_threefold_repetition = true)
        · rw [if_pos h3] at h
          injection h with h1 h2
          rw [← h2]
          exact lookupGame_delGame_self gs name
        · rw [if_neg h3] at h
          injection h with h1 h2
          cases h1
  · intro gs name a reaction gs2 h
    unfold cogDrawByAgreement at h
    cases hl : lookupGame gs name with
    | none =>
      rw [hl] at h
      injection h with h1 h2
      cases h1
    | some game =>
      rw [hl] at h
      dsimp only at h
      by_cases hp : (a = game.player_black_id ∨ a = game.player_white_id)
      · rw [if_pos hp] at h
        rcases reaction with _ | b
        · injection h with h1 h2
          cases h1
        · cases b
          · injection h with h1 h2
            cases h1
          · injection h with h1 h2
            rw [← h2]
            exact lookupGame_delGame_self gs name
      · rw [if_neg hp] at h
        injection h with h1 h2
        cases h1
  · intro gs name a san h
    unfold cogMovePiece
    rw [h]
  · intro gs name t h
    unfold cogClaimDraw
    rw [h]

/-- Claim C1 witness: a confirmed resignation deletes the demo game, and
on a store without the game both follow-up commands report a missing game
and change nothing. -/
theorem terminal_deleted_then_not_found_witness :
    lookupGame (cogResign demoStore "game" 2 true none).2 "game" = none ∧
    cogMovePiece [] "game" 1 "e4" = (.gameNotFound, []) ∧
    cogClaimDraw [] "game" fiftyMovesLabel = (.gameNotFound, []) :=
  ⟨terminal_deleted_then_not_found.2.1 demoStore "game" 2 true none 1
      (cogResign demoStore "game" 2 true none).2 rfl,
   terminal_deleted_then_not_found.2.2.2.2.1 [] "game" 1 "e4" rfl,
   terminal_deleted_then_not_found.2.2.2.2.2 [] "game" fiftyMovesLabel rfl⟩

/-- Numeric value of a decimal digit character. -/
def charDigitVal (ch : Char) : Nat :=
  ch.toNat - Char.toNat '0'

/-- Value of a decimal digit string, most significant digit first. -/
def digitsVal : List Char → Nat
  | [] => 0
  | ch :: rest => charDigitVal ch * 10 ^ rest.length + digitsVal rest

theorem charDigitVal_digitChar : ∀ d, d < 10 →
    charDigitVal (Nat.digitChar d) = d := by
  decide

theorem digitsVal_toDigitsCore :
    ∀ (fuel n : Nat) (ds : List Char), n < fuel →
      digitsVal (Nat.toDigitsCore 10 fuel n ds) =
        n * 10 ^ ds.length + digitsVal ds := by
  intro fuel
  induction fuel with
  | zero =>
    intro n ds h
    omega
  | succ fuel ih =>
    intro n ds h
    simp only [Nat.toDigitsCore]
    by_cases h0 : n / 10 = 0
    · rw [if_pos h0]
      have hn : n < 10 := by omega
      simp only [digitsVal]
      rw [charDigitVal_digitChar (n % 10) (by omega)]
      have hmod : n % 10 = n := Nat.mod_eq_of_lt hn
      rw [hmod]
    · rw [if_neg h0]
      have hlt : n / 10 < fuel := by omega
      rw [ih (n / 10) (Nat.digitChar (n % 10) :: ds) hlt]
      simp only [digitsVal, List.length_cons]
      rw [charDigitVal_digitChar (n % 10) (by omega)]
      have hdm : 10 * (n / 10) + n % 10 = n := Nat.div_add_mod n 10
      calc n / 10 * 10 ^ (ds.length + 1) +
            (n % 10 * 10 ^ ds.length + digitsVal ds)
          = (10 * (n / 10) + n % 10) * 10 ^ ds.length + digitsVal ds := by
            rw [pow_succ]; ring
        _ = n * 10 ^ ds.length + digitsVal ds := by rw [hdm]

theorem digitsVal_toDigits (n : Nat) :
    digitsVal (Nat.toDigits 10 n) = n := by
  unfold Nat.toDigits
  rw [digitsVal_toDigitsCore (n + 1) n [] (Nat.lt_succ_self n)]
  simp [digitsVal]

theorem nat_repr_injective (m n : Nat) (h : Nat.repr m = Nat.repr n) :
    m = n := by
  have h2 : Nat.toDigits 10 m = Nat.toDigits 10 n := by
    have h3 := congrArg String.data h
    simpa [Nat.repr, List.asString] using h3
  have h4 := congrArg digitsVal h2
  simpa [digitsVal_toDigits] using h4

theorem toDigitsCore_length_ge :
    ∀ (fuel n : Nat) (ds : List Char),
      ds.length + 1 ≤ (Nat.toDigitsCore 10 (fuel + 1) n ds).length := by
  intro fuel
  induction fuel with
  | zero =>
    intro n ds
    simp only [Nat.toDigitsCore]
    by_cases h0 : n / 10 = 0
    · simp [h0]
    · simp [h0]
  | succ fuel ih =>
    intro n ds
    have h2 := ih (n / 10) (Nat.digitChar (n % 10) :: ds)
    simp only [Nat.toDigitsCore, List.length_cons] at h2 ⊢
    by_cases h0 : n / 10 = 0
    · simp [h0]
    · rw [if_neg h0]
      omega

theorem repr_length_pos (n : Nat) : 1 ≤ (Nat.repr n).length := by
  have h : 1 ≤ (Nat.toDigits 10 n).length := by
    unfold Nat.toDigits
    have := toDigitsCore_length_ge n n []
    simpa using this
  simpa [Nat.repr, List.asString, String.length] using h

theorem string_append_data (s t : String) :
    (s ++ t).data = s.data ++ t.data := by
  cases s
  cases t
  rfl

theorem gameNameCandidate_injective (base : String) :
    ∀ j k, gameNameCandidate base j = gameNameCandidate base k → j = k := by
  have hlen : ∀ k, ¬ base = base ++ Nat.repr (k + 1) := by
    intro k h
    have h2 := congrArg (fun s => s.data.length) h
    simp only [string_append_data, List.length_append] at h2
    have h3 := repr_length_pos (k + 1)
    simp only [String.length] at h3
    omega
  intro j k h
  unfold gameNameCandidate at h
  rcases j with _ | j <;> rcases k with _ | k
  · rfl
  · exact absurd (by simpa using h) (hlen k)
  · exact absurd (by simpa using h.symm) (hlen j)
  · have h2 : (base ++ Nat.repr (j + 1)).data =
        (base ++ Nat.repr (k + 1)).data := by
      simp at h
      rw [h]
    rw [string_append_data, string_append_data] at h2
    have h3 := List.append_cancel_left h2
    have h4 : Nat.repr (j + 1) = Nat.repr (k + 1) := by
      apply String.ext
      exact h3
    have := nat_repr_injective (j + 1) (k + 1) h4
    omega

theorem lookupGame_mem_keys (gs : GameStore) (name : String)
    (h : ¬ lookupGame gs name = none) : name ∈ gs.map Prod.fst := by
  unfold lookupGame at h
  cases hf : gs.find? (fun e => decide (e.1 = name)) with
  | none => rw [hf] at h; simp at h
  | some e =>
    have hpred := List.find?_some hf
    have hmem := List.mem_of_find?_eq_some hf
    have he : e.1 = name := by simpa using hpred
    exact he ▸ List.mem_map.mpr ⟨e, hmem, rfl⟩

/-- A finite store cannot contain every candidate name: among the first
`gs.length + 1` candidates some name is free. -/
theorem exists_fresh_candidate (gs : GameStore) (base : String) :
    ∃ j, j ≤ gs.length ∧
      lookupGame gs (gameNameCandidate base j) = none := by
  by_contra hcon
  push_neg at hcon
  have hmem : ∀ j, j ≤ gs.length →
      gameNameCandidate base j ∈ gs.map Prod.fst :=
    fun j hj => lookupGame_mem_keys gs _ (hcon j hj)
  have hsub : (Finset.range (gs.length + 1)).image (gameNameCandidate base) ⊆
      (gs.map Prod.fst).toFinset := by
    intro x hx
    rw [Finset.mem_image] at hx
    obtain ⟨j, hj, rfl⟩ := hx
    rw [List.mem_toFinset]
    exact hmem j (by simpa [Nat.lt_succ_iff] using hj)
  have hcard1 : ((Finset.range (gs.length + 1)).image
      (gameNameCandidate base)).card = gs.length + 1 := by
    rw [Finset.card_image_of_injOn
      (fun x _ y _ hxy => gameNameCandidate_injective base x y hxy)]
    exact Finset.card_range (gs.length + 1)
  have hcard2 := Finset.card_le_card hsub
  have hcard3 : (gs.map Prod.fst).toFinset.card ≤ (gs.map Prod.fst).length :=
    (gs.map Prod.fst).toFinset_card_le
  rw [List.length_map] at hcard3
  omega

theorem freshNameLoop_spec (gs : GameStore) (base : String) :
    ∀ (fuel k : Nat),
      (∃ j, j < fuel ∧
        lookupGame gs (gameNameCandidate base (k + j)) = none) →
      ∃ j, j < fuel ∧
        lookupGame gs (gameNameCandidate base (k + j)) = none ∧
        (∀ i, i < j →
          ¬ lookupGame gs (gameNameCandidate base (k + i)) = none) ∧
        freshNameLoop gs base k fuel = gameNameCandidate base (k + j) := by
  intro fuel
  induction fuel with
  | zero =>
    rintro k ⟨j, hj, -⟩
    omega
  | succ fuel ih =>
    rintro k ⟨j, hj, hfree⟩
    by_cases hk : lookupGame gs (gameNameCandidate base k) = none
    · refine ⟨0, by omega, by simpa using hk, ?_, ?_⟩
      · intro i hi
        omega
      · simp only [freshNameLoop, if_pos hk]
        rw [Nat.add_zero]
    · have hj0 : ¬ j = 0 := by
        rintro rfl
        rw [Nat.add_zero] at hfree
        exact hk hfree
      obtain ⟨j1, rfl⟩ : ∃ j1, j = j1 + 1 := ⟨j - 1, by omega⟩
      have hex : ∃ j2, j2 < fuel ∧
          lookupGame gs (gameNameCandidate base (k + 1 + j2)) = none := by
        refine ⟨j1, by omega, ?_⟩
        rw [show k + 1 + j1 = k + (j1 + 1) by omega]
        exact hfree
      obtain ⟨j2, hj2, hfree2, hmin2, heq2⟩ := ih (k + 1) hex
      refine ⟨j2 + 1, by omega, ?_, ?_, ?_⟩
      · rw [show k + (j2 + 1) = k + 1 + j2 by omega]
        exact hfree2
      · intro i hi
        cases i with
        | zero =>
          rw [Nat.add_zero]
          exact hk
        | succ i1 =>
          rw [show k + (i1 + 1) = k + 1 + i1 by omega]
          exact hmin2 i1 (by omega)
      · simp only [freshNameLoop, if_neg hk]
        rw [heq2]
        congr 1
        omega

/-- Claim C9: a successful `start_game` stores the new session under a
name absent from the store — the requested or default base name when that
is free, else the base name suffixed with the smallest count making it
free — so no existing entry is ever overwritten, and the name search
terminates with that name. -/
theorem start_game_fresh_name (gs : GameStore) (a b : Nat)
    (gameName gameType : Option String) (outName : String) (gs2 : GameStore)
    (h : cogStartGame gs a b gameName gameType = (.started outName, gs2)) :
    lookupGame gs outName = none ∧
    (∀ m, ¬ m = outName → lookupGame gs2 m = lookupGame gs m) ∧
    (∃ g, Game.new a b gameType = .ok g ∧ gs2 = setGame gs outName g ∧
      lookupGame gs2 outName = some g) ∧
    (∃ k, outName = gameNameCandidate (baseNameOf gameName) k ∧
      ∀ i, i < k →
        ¬ lookupGame gs (gameNameCandidate (baseNameOf gameName) i) = none) := by
  unfold cogStartGame at h
  by_cases hab : a = b
  · rw [if_pos hab] at h
    injection h with h1 h2
    cases h1
  · rw [if_neg hab] at h
    dsimp only at h
    cases hg : Game.new a b gameType with
    | error e =>
      rw [hg] at h
      injection h with h1 h2
      cases h1
    | ok g =>
      rw [hg] at h
      injection h with h1 h2
      injection h1 with h1n
      obtain ⟨j0, hj0, hf0⟩ := exists_fresh_candidate gs (baseNameOf gameName)
      obtain ⟨j, hj, hfree, hmin, heq⟩ :=
        freshNameLoop_spec gs (baseNameOf gameName) (gs.length + 1) 0
          ⟨j0, by omega, by simpa using hf0⟩
      simp only [Nat.zero_add] at hfree hmin heq
      have hfg : freshGameName gs (baseNameOf gameName) =
          gameNameCandidate (baseNameOf gameName) j := heq
      rw [hfg] at h1n h2
      subst h1n
      refine ⟨hfree, ?_, ⟨g, rfl, h2.symm, ?_⟩, ⟨j, rfl, ?_⟩⟩
      · intro m hm
        rw [← h2]
        exact lookupGame_setGame_other gs _ g m hm
      · rw [← h2]
        exact lookupGame_setGame_self gs _ g
      · intro i hi
        simpa using hmin i hi

/-- Claim C9 witness: starting a second unnamed game in a channel that
already has `game` stores it as `game1`, which was free in the store. -/
theorem start_game_fresh_name_witness :
    cogStartGame demoStore 1 2 none none =
      (.started "game1", setGame demoStore "game1" demoGame) ∧
    lookupGame demoStore "game1" = none :=
  ⟨rfl,
   (start_game_fresh_name demoStore 1 2 none none "game1"
      (setGame demoStore "game1" demoGame) rfl).1⟩

end WildChess
